/-
Verification of the keychain-studio 2D-polygon → 3D-solid pipeline.

The development shallowly embeds the geometry core of the three designer
variants and the shared utility module:

* `part_000` — the "Text Only" (outline) designer;
* `part_001` — the rounded-rectangle name-tag designer;
* `part_002` — the "initial + text" designer;
* `part_003` — shared utilities (`getFont`, `makeKeyringGeometry`, …).

Coordinates are modelled with `ℚ` (world space) and `ℤ` (the integer space of
the clipper engine, world × 1000).  Polygon trees are rose trees with an
`isHole` flag, mirroring the clipper `PolyTree` node shape.  Orientation is
the three.js `ShapeUtils.isClockWise` test: the shoelace signed area of the
closed contour is negative.
-/
import Mathlib

namespace KeychainStudio

/-- An integer point as handed to the clipper engine (`{X, Y}` in the source,
world coordinates times the fixed factor `SCALE = 1000`). -/
structure IntPt where
  X : ℤ
  Y : ℤ
deriving DecidableEq, Repr

/-- A world-space 2D point (`THREE.Vector2` in the source). -/
structure Vec2 where
  x : ℚ
  y : ℚ
deriving DecidableEq, Repr

/-- The fixed integer scale factor used by every variant before entering the
clipper engine (`const SCALE = 1000` in part_000 line 271, part_001 line 215,
part_002 line 276). -/
def SCALE : ℤ := 1000

/-- One coordinate entering the engine: `Math.round(c * SCALE)`
(`toPath` in part_000/part_002, `shapeToPath`/`circleToPath` in part_001). -/
def scaleCoord (c : ℚ) : ℤ := round (c * (SCALE : ℚ))

/-- One coordinate leaving the engine: `pt.X / SCALE`
(`toVec2` in part_000 line 472, part_001 line 317, part_002 line 364). -/
def unscaleCoord (z : ℤ) : ℚ := (z : ℚ) / (SCALE : ℚ)

/-- World point → engine point (the body of `toPath`). -/
def toIntPt (v : Vec2) : IntPt := ⟨scaleCoord v.x, scaleCoord v.y⟩

/-- Engine point → world point (the body of `toVec2`). -/
def toVec2 (p : IntPt) : Vec2 := ⟨unscaleCoord p.X, unscaleCoord p.Y⟩

/-- The cross-product term of the shoelace sum
(`contour[p].x * contour[q].y - contour[q].x * contour[p].y` in
`THREE.ShapeUtils.area`). -/
def cross (a b : Vec2) : ℚ := a.x * b.y - b.x * a.y

/-- Sum of shoelace terms along an (open) list of points. -/
def pathSum : List Vec2 → ℚ
  | [] => 0
  | [_] => 0
  | a :: b :: rest => cross a b + pathSum (b :: rest)

/-- Twice the signed area of the closed polygon on the given vertex list,
exactly the loop of `THREE.ShapeUtils.area` (which also adds the wrap-around
term from the last vertex back to the first). -/
def signedArea2 (l : List Vec2) : ℚ := pathSum (l ++ l.take 1)

/-- `THREE.ShapeUtils.isClockWise`: the signed area is negative. -/
def isClockWise (l : List Vec2) : Bool := decide (signedArea2 l < 0)

/- ── Polygon trees (clipper `PolyTree` nodes) ──────────────────────────── -/

mutual
/-- One clipper tree node: hole flag (`IsHole()` / `m_IsHole`), contour
(`Contour()` / `m_polygon`) and children (`Childs()` / `m_Childs`). -/
inductive PolyNode : Type where
  | node (isHole : Bool) (contour : List IntPt) (childs : PolyForest) : PolyNode

/-- An ordered list of sibling tree nodes. -/
inductive PolyForest : Type where
  | nil : PolyForest
  | cons (head : PolyNode) (tail : PolyForest) : PolyForest
end

/-- A reconstructed region (`THREE.Shape`): outer boundary plus hole
boundaries. -/
structure Shape where
  outer : List Vec2
  holes : List (List Vec2)
deriving DecidableEq, Repr

/-- Force a boundary counter-clockwise: part_000 lines 479–480
(`if (THREE.ShapeUtils.isClockWise(outerPts)) outerPts.reverse()`). -/
def forceCCW (pts : List Vec2) : List Vec2 :=
  if isClockWise pts then pts.reverse else pts

/-- Force a boundary clockwise: part_000 lines 489–491
(`if (!THREE.ShapeUtils.isClockWise(holePts)) holePts.reverse()`). -/
def forceCW (pts : List Vec2) : List Vec2 :=
  if isClockWise pts then pts else pts.reverse

mutual
/-- `buildFromOuter` of `polyTreeToThreeShapes`, shared skeleton of the
part_000 (lines 474–501) and part_002 (lines 366–388) versions, parametrised
by the per-boundary orientation fixups the variant applies (`forceCCW` /
`forceCW` in part_000; no fixup, i.e. `id`, in part_002).  Returns the shape
built for this outer node (`none` when its contour is degenerate, in which
case the source returns before visiting any child) paired with the island
shapes the call pushed into `shapesOut`. -/
def buildFromOuter (fixOut fixHole : List Vec2 → List Vec2) :
    PolyNode → Option Shape × List (Option Shape)
  | .node _ contour childs =>
    if contour.length < 3 then (none, [])
    else
      let hi := holesAndIslands fixOut fixHole childs
      (some ⟨fixOut (contour.map toVec2), hi.1⟩, hi.2)

/-- The loop over the children of an outer node: hole children contribute
their contour to `shape.holes` (when it has at least 3 points) and their
non-hole children as islands; non-hole children are skipped (`continue`). -/
def holesAndIslands (fixOut fixHole : List Vec2 → List Vec2) :
    PolyForest → List (List Vec2) × List (Option Shape)
  | .nil => ([], [])
  | .cons (.node chHole chContour chChilds) rest =>
    let tailHI := holesAndIslands fixOut fixHole rest
    if chHole then
      ((if 3 ≤ chContour.length then [fixHole (chContour.map toVec2)] else [])
          ++ tailHI.1,
        islandsOf fixOut fixHole chChilds ++ tailHI.2)
    else tailHI

/-- The inner loop over a hole child's children: every non-hole grandchild is
rebuilt as an independent shape and pushed (`shapesOut.push(buildFromOuter(hk))`,
pushed after the islands emitted during its own recursive call). -/
def islandsOf (fixOut fixHole : List Vec2 → List Vec2) :
    PolyForest → List (Option Shape)
  | .nil => []
  | .cons (.node hkHole hkContour hkChilds) rest =>
    (if hkHole then []
     else
       let r := buildFromOuter fixOut fixHole (.node hkHole hkContour hkChilds)
       r.2 ++ [r.1])
      ++ islandsOf fixOut fixHole rest
end

/-- The top-level loop of `polyTreeToThreeShapes` over the tree roots:
hole roots are skipped, and a root's shape is pushed only when non-null
(`if (s) shapesOut.push(s)`). -/
def polyTreeToThreeShapesGen (fixOut fixHole : List Vec2 → List Vec2) :
    PolyForest → List (Option Shape)
  | .nil => []
  | .cons (.node h c cs) rest =>
    (if h then []
     else
       let r := buildFromOuter fixOut fixHole (.node h c cs)
       r.2 ++ (match r.1 with | some s => [some s] | none => []))
      ++ polyTreeToThreeShapesGen fixOut fixHole rest

/-- part_000's `polyTreeToThreeShapes` (lines 470–510): re-checks and flips
the winding of every boundary (outer → CCW, hole → CW). -/
def polyTreeToThreeShapes000 : PolyForest → List (Option Shape) :=
  polyTreeToThreeShapesGen forceCCW forceCW

/-- part_002's `polyTreeToThreeShapes` (lines 362–397): passes every contour
through unchanged, with no orientation check on any boundary. -/
def polyTreeToThreeShapes002 : PolyForest → List (Option Shape) :=
  polyTreeToThreeShapesGen id id

/- ── Tree validity predicates ──────────────────────────────────────────── -/

mutual
/-- Every contour in the node's subtree has at least 3 points (the spec
discards degenerate paths before they reach the boolean engine). -/
def bigNode : PolyNode → Bool
  | .node _ c cs => decide (3 ≤ c.length) && bigForest cs

def bigForest : PolyForest → Bool
  | .nil => true
  | .cons n rest => bigNode n && bigForest rest
end

mutual
/-- Every contour in the node's subtree has nonzero signed area after
unscaling — the valid trees on which a winding direction is meaningful. -/
def nondegNode : PolyNode → Bool
  | .node _ c cs => decide (signedArea2 (c.map toVec2) ≠ 0) && nondegForest cs

def nondegForest : PolyForest → Bool
  | .nil => true
  | .cons n rest => nondegNode n && nondegForest rest
end

/-- The orientation invariant the spec requires at the boundary to the
extrusion collaborator: outer counter-clockwise (positive area), every direct
hole clockwise (negative area). -/
def ShapeOriented (s : Shape) : Prop :=
  0 < signedArea2 s.outer ∧ ∀ h ∈ s.holes, signedArea2 h < 0

/- ── Spec-side Region collection (islands as independent Regions) ──────── -/

mutual
/-- Modelled from the spec wording of §4.2: the outer contours of the
Regions a non-hole node owes — its own contour, plus, recursively, one
Region per island found below its holes. -/
def fillContoursNode : PolyNode → List (List IntPt)
  | .node _ contour childs => contour :: fillContoursHoles childs

/-- Outer contours owed by the islands below the hole members of a child
list. -/
def fillContoursHoles : PolyForest → List (List IntPt)
  | .nil => []
  | .cons (.node h _ hchilds) rest =>
    (if h then fillContoursIslands hchilds else []) ++ fillContoursHoles rest

/-- Outer contours owed by the non-hole members (islands) of a hole's child
list, recursively. -/
def fillContoursIslands : PolyForest → List (List IntPt)
  | .nil => []
  | .cons (.node h c cs) rest =>
    (if h then [] else fillContoursNode (.node h c cs)) ++ fillContoursIslands rest
end

/-- The outer contours, one per Region, that the spec's Shape Reconstructor
owes for a whole tree: one per non-hole root plus the recursively unwrapped
islands. -/
def fillContours : PolyForest → List (List IntPt)
  | .nil => []
  | .cons (.node h c cs) rest =>
    (if h then [] else fillContoursNode (.node h c cs)) ++ fillContours rest

/-- The outer boundaries of the non-null shapes in a `shapesOut` list. -/
def emittedOuters (l : List (Option Shape)) : List (List Vec2) :=
  l.reduceOption.map Shape.outer

/-- The outer boundary a variant builds from a tree contour: unscale the
points and apply the variant's outer-orientation fixup. -/
def reconOuter (fixOut : List Vec2 → List Vec2) (c : List IntPt) : List Vec2 :=
  fixOut (c.map toVec2)

/- ── Export control flow (`exportSTL` of the three variants) ───────────── -/

/-- The externally observable steps of an `exportSTL` run. -/
inductive ExportEvent : Type where
  | requestLogin      -- `onRequestLogin()`
  | licenseCheck      -- `await checkLicenseStatus(user)` resolves
  | openLicenseModal  -- `licenseModalRef?.open()`
  | rebuild           -- `rebuildMeshes()`
  | serialize         -- `exporter.parse(..., { binary: true })`
  | emitFile          -- `downloadBlob(...)`
  | exportFailed      -- an error is thrown and surfaced (`exportError` set)
deriving DecidableEq, Repr

/-- The run-determining inputs of an `exportSTL` call: whether the scene/group
exists, whether a user is signed in, what the license check resolves to, and
what the serializer produces. -/
structure ExportInput where
  sceneReady : Bool
  userPresent : Bool
  canExport : Bool
  hasGeometry : Bool
  byteLength : ℕ
deriving DecidableEq, Repr

/-- part_000 `exportSTL` (lines 214–260): scene guard, sign-in guard, license
check, then `rebuildMeshes()`, geometry collection, serialization, and a
silent skip of the download when the buffer is below 84 bytes. -/
def exportTrace000 (i : ExportInput) : List ExportEvent :=
  if !i.sceneReady then []
  else if !i.userPresent then [.requestLogin]
  else .licenseCheck ::
    (if !i.canExport then [.openLicenseModal]
     else .rebuild ::
       (if !i.hasGeometry then []
        else .serialize ::
          (if 84 ≤ i.byteLength then [.emitFile] else [])))

/-- part_001 `exportSTL` (lines 612–660): sign-in guard, license check, then a
`try` block that rebuilds, serializes, throws ("Export produced no geometry")
when the buffer is below 84 bytes, and downloads otherwise. -/
def exportTrace001 (i : ExportInput) : List ExportEvent :=
  if !i.userPresent then [.requestLogin]
  else .licenseCheck ::
    (if !i.canExport then [.openLicenseModal]
     else if !i.sceneReady then [.exportFailed]
     else .rebuild ::
       (if !i.hasGeometry then [.exportFailed]
        else .serialize ::
          (if i.byteLength < 84 then [.exportFailed] else [.emitFile])))

/-- part_002 `exportSTL` (lines 240–265): group guard, sign-in guard, license
check, then it serializes the scene group as-is and downloads unconditionally
— no rebuild and no buffer-size guard. -/
def exportTrace002 (i : ExportInput) : List ExportEvent :=
  if !i.sceneReady then []
  else if !i.userPresent then [.requestLogin]
  else .licenseCheck ::
    (if !i.canExport then [.openLicenseModal]
     else [.serialize, .emitFile])

/- ── Layer stacking (`rebuildMeshes` of the three variants) ────────────── -/

/-- Which logical layer a solid implements. -/
inductive LayerTag : Type where
  | base
  | text
  | border
  | initialGlyph
  | initialBase
  | ring
deriving DecidableEq, Repr

/-- One extruded solid: its layer tag, the world z of its bottom face
(`mesh.position.z` plus any geometry z-translation) and its height (the
`depth` argument passed to `THREE.ExtrudeGeometry`, which by the extrusion
collaborator's contract equals the mesh's bounding-box z-extent). -/
structure Solid where
  tag : LayerTag
  zBottom : ℚ
  height : ℚ
deriving DecidableEq, Repr

/-- World z of the solid's top face. -/
def Solid.zTop (s : Solid) : ℚ := s.zBottom + s.height

/-- `TEXT_BASE_EMBED = 0.2` (part_000 line 56, part_001 line 47). -/
def TEXT_BASE_EMBED : ℚ := 1/5

/-- `BORDER_BASE_EMBED = 0.05` (part_001 line 49). -/
def BORDER_BASE_EMBED : ℚ := 1/20

/-- The result of a rebuild: the string handed to `font.generateShapes` and
the stacked solids. -/
structure BuildResult where
  glyphText : String
  solids : List Solid
deriving DecidableEq, Repr

/-- part_000 `rebuildMeshes` (geometry/stacking, lines 300 and 526–556):
glyphs from `text || " "`; base extruded `max(0.1, baseDepth)` at z 0; text
extruded `max(0.1, textDepth)` sunk `TEXT_BASE_EMBED` into the base. -/
def rebuildMeshes000 (text : String) (baseDepth textDepth : ℚ) : BuildResult :=
  ⟨if text = "" then " " else text,
   [⟨.base, 0, max (1/10) baseDepth⟩,
    ⟨.text, max (1/10) baseDepth - TEXT_BASE_EMBED, max (1/10) textDepth⟩]⟩

/-- part_001 `rebuildMeshes` (stacking, lines 339–585): base translated so
its bottom sits at z 0; border layer (when its merged shape exists) with its
geometry bottom at 0, placed at `baseDepth - BORDER_BASE_EMBED`; text
extruded `max(0.01, textDepth)` at `baseDepth - TEXT_BASE_EMBED` when the
trimmed text is nonempty. -/
def rebuildMeshes001 (textContent : String)
    (baseDepth topBorderDepth textDepth : ℚ) (hasBorder : Bool) : List Solid :=
  [⟨.base, 0, max (1/10) baseDepth⟩]
    ++ (if hasBorder then
          [⟨.border, baseDepth - BORDER_BASE_EMBED, max (1/10) topBorderDepth⟩]
        else [])
    ++ (if textContent.trim = "" then []
        else [⟨.text, baseDepth - TEXT_BASE_EMBED, max (1/100) textDepth⟩])

/-- part_002 `rebuildMeshes` (lines 306 and 447–537): glyphs from
`text || " "`; with an initial glyph present, initial and initial-base sit at
z 0.005 / 0, the base at `max(0.1, initialDepth) + 0.01` and the text at
`max(0.1, initialDepth) + max(0.1, baseDepth) + 0.02` (positive offsets);
without one, text sits at `max(0.1, baseDepth) - 0.02`; the keyring ring sits
at z 0. -/
def rebuildMeshes002 (text : String) (hasInitial keyringEnabled : Bool)
    (initialDepth baseDepth textDepth keyringDepth : ℚ) : BuildResult :=
  ⟨if text = "" then " " else text,
   (if hasInitial then
      [⟨.initialGlyph, 1/200, max (1/10) initialDepth⟩,
       ⟨.initialBase, 0, max (1/10) initialDepth⟩,
       ⟨.base, max (1/10) initialDepth + 1/100, max (1/10) baseDepth⟩,
       ⟨.text, max (1/10) initialDepth + max (1/10) baseDepth + 1/50,
         max (1/10) textDepth⟩]
    else
      [⟨.base, 0, max (1/10) baseDepth⟩,
       ⟨.text, max (1/10) baseDepth - 1/50, max (1/10) textDepth⟩])
    ++ (if keyringEnabled then [⟨.ring, 0, max (1/10) keyringDepth⟩] else [])⟩

/-- The upper layer is embedded into the lower one by a small amount in the
spec's 0.05–0.2 range (in particular its bottom face is strictly below the
lower layer's top face and there is no gap). -/
def ProperlyEmbedded (lower upper : Solid) : Prop :=
  1/20 ≤ lower.zTop - upper.zBottom ∧ lower.zTop - upper.zBottom ≤ 1/5

/- ── Keyring radii ─────────────────────────────────────────────────────── -/

/-- `outerR` of the part_000 keyring branch (line 417). -/
def keyringOuterR000 (keyringOuterSize : ℚ) : ℚ :=
  max (1/10) (keyringOuterSize / 2)

/-- `innerR` of the part_000 keyring branch (lines 418–421). -/
def keyringInnerR000 (keyringOuterSize keyringHoleSize : ℚ) : ℚ :=
  min (max (1/20) (keyringHoleSize / 2)) (keyringOuterR000 keyringOuterSize - 1/10)

/-- The annulus data produced by `makeKeyringGeometry` (part_003
lines 196–219). -/
structure KeyringGeo where
  outerRadius : ℚ
  innerRadius : ℚ
  depth : ℚ
deriving DecidableEq, Repr

/-- `makeKeyringGeometry` (part_003 lines 196–219): outer radius clamped to
at least 0.1, inner radius clamped between 0.05 (from below) and
`outerRadius - 0.1` (from above), extrusion depth `max(0.1, depth)`. -/
def makeKeyringGeometry (outerDiameter innerDiameter depth : ℚ) : KeyringGeo :=
  let outerRadius := max (1/10) (outerDiameter / 2)
  let innerRadius := min (max (1/20) (innerDiameter / 2)) (outerRadius - 1/10)
  ⟨outerRadius, innerRadius, max (1/10) depth⟩

/- ── Font lookup and cache (`getFont`, part_003 lines 120–130) ─────────── -/

/-- The `key` fields of `FONT_OPTIONS` (part_003 lines 42–79), in order. -/
def FONT_OPTION_KEYS : List String :=
  ["Titan One_Regular", "Showpop_Regular", "Retro Dolly_Book",
   "Kindergo_Regular", "Beautiful Harmony_Regular", "Milkyway_Regular"]

/-- A parsed font object: which `FONT_OPTIONS` entry's json was parsed, and a
unique id standing for javascript object identity (each `fontLoader.parse`
call creates a fresh object). -/
structure Font where
  optIndex : ℕ
  uid : ℕ
deriving DecidableEq, Repr

/-- The module-level `fontCache` map plus the supply of fresh object ids. -/
structure FontCacheState where
  cache : List (String × Font)
  nextUid : ℕ
deriving DecidableEq, Repr

/-- `FONT_OPTIONS.find((o) => o.key === key) ?? FONT_OPTIONS[0]`, as the index
of the resolved option. -/
def resolvedOptionIndex (key : String) : ℕ :=
  match FONT_OPTION_KEYS.findIdx? (fun k => k == key) with
  | some i => i
  | none => 0

/-- `getFont` (part_003 lines 123–130): return the cached font when present;
otherwise resolve the option (falling back to the first one), parse it into a
fresh object, cache it under the requested key and return it. -/
def getFont (key : String) (s : FontCacheState) : Font × FontCacheState :=
  match s.cache.lookup key with
  | some f => (f, s)
  | none =>
      let f : Font := ⟨resolvedOptionIndex key, s.nextUid⟩
      (f, ⟨(key, f) :: s.cache, s.nextUid + 1⟩)

/- ── Concrete example trees ────────────────────────────────────────────── -/

/-- A triangle contour wound clockwise (signed area −1 after unscaling). -/
def cwTriContour : List IntPt := [⟨0, 0⟩, ⟨0, 1000⟩, ⟨1000, 0⟩]

/-- A tree with a single non-hole root whose contour is wound clockwise. -/
def cwTriForest : PolyForest := .cons (.node false cwTriContour .nil) .nil

/-- A square outer contour with a square hole containing a triangular
island: the outer→hole→island nesting of the spec. -/
def demoForest : PolyForest :=
  .cons
    (.node false [⟨0, 0⟩, ⟨4000, 0⟩, ⟨4000, 4000⟩, ⟨0, 4000⟩]
      (.cons
        (.node true [⟨1000, 1000⟩, ⟨3000, 1000⟩, ⟨3000, 3000⟩, ⟨1000, 3000⟩]
          (.cons
            (.node false [⟨1500, 1500⟩, ⟨2500, 1500⟩, ⟨2000, 2500⟩] .nil)
            .nil))
        .nil))
    .nil

/-- Fallback solid used as the default of list indexing in closed
statements. -/
def fallbackSolid : Solid := ⟨.ring, 0, 0⟩

/- ── General lemmas ──────────────────────────────────────────────────── -/

theorem cross_self (a : Vec2) : cross a a = 0 := by
  simp [cross, mul_comm]

theorem cross_antisymm (a b : Vec2) : cross b a = - cross a b := by
  unfold cross; ring

theorem pathSum_cons_cons (a b : Vec2) (rest : List Vec2) :
    pathSum (a :: b :: rest) = cross a b + pathSum (b :: rest) := rfl

theorem getLastD_snoc {α : Type} (l : List α) (y d : α) :
    (l ++ [y]).getLastD d = y := by
  induction l generalizing d with
  | nil => rfl
  | cons a t ih => rw [List.cons_append, List.getLastD_cons, ih]

/-- Appending one more vertex after a nonempty path adds one shoelace term. -/
theorem pathSum_append_last (d : Vec2) (xs : List Vec2) (z : Vec2) :
    pathSum (d :: (xs ++ [z])) = pathSum (d :: xs) + cross (xs.getLastD d) z := by
  induction xs generalizing d with
  | nil => simp [pathSum]
  | cons w ws ih =>
      rw [show d :: (w :: ws ++ [z]) = d :: w :: (ws ++ [z]) from rfl,
        pathSum_cons_cons d w (ws ++ [z]), ih w,
        pathSum_cons_cons d w ws, List.getLastD_cons]
      ring

/-- Appending two more vertices adds the shoelace term of the final edge. -/
theorem pathSum_append_two (xs : List Vec2) (y z : Vec2) :
    pathSum (xs ++ [y, z]) = pathSum (xs ++ [y]) + cross y z := by
  cases xs with
  | nil => simp [pathSum]
  | cons d rest =>
      have h : rest ++ [y, z] = (rest ++ [y]) ++ [z] := by simp
      rw [List.cons_append, h, pathSum_append_last d (rest ++ [y]) z,
        getLastD_snoc, List.cons_append]

/-- Reversing an open path negates the shoelace sum. -/
theorem pathSum_reverse_aux (t : List Vec2) (a : Vec2) :
    pathSum (t.reverse ++ [a]) = - pathSum (a :: t) := by
  induction t generalizing a with
  | nil => simp [pathSum]
  | cons b t' ih =>
      have h : (b :: t').reverse ++ [a] = (t'.reverse ++ [b]) ++ [a] := by simp
      rw [h]
      have h2 : (t'.reverse ++ [b]) ++ [a] = t'.reverse ++ [b, a] := by simp
      rw [h2, pathSum_append_two, ih b, pathSum_cons_cons, cross_antisymm]
      ring

theorem pathSum_reverse (l : List Vec2) : pathSum l.reverse = - pathSum l := by
  cases l with
  | nil => simp [pathSum]
  | cons a t =>
      have h : (a :: t).reverse = t.reverse ++ [a] := by simp
      rw [h, pathSum_reverse_aux]

theorem signedArea2_cons (h : Vec2) (t : List Vec2) :
    signedArea2 (h :: t) = pathSum (h :: t) + cross (t.getLastD h) h := by
  unfold signedArea2
  have : (h :: t) ++ (h :: t).take 1 = h :: (t ++ [h]) := by simp
  rw [this, pathSum_append_last]

/-- Reversing a contour negates its signed area.  This is what makes the
per-boundary `reverse()` calls in the shape reconstructor flip the winding. -/
theorem signedArea2_reverse (l : List Vec2) :
    signedArea2 l.reverse = - signedArea2 l := by
  cases l with
  | nil => simp [signedArea2, pathSum]
  | cons h t =>
      obtain ⟨c, cs, hc⟩ : ∃ c cs, (h :: t).reverse = c :: cs := by
        cases heq : (h :: t).reverse with
        | nil => exact absurd heq (by simp)
        | cons c cs => exact ⟨c, cs, rfl⟩
      rw [hc, signedArea2_cons, ← hc, pathSum_reverse]
      have hlast : ((h :: t).reverse.getLastD c) = h := by
        rw [List.getLastD_eq_getLast?, List.getLast?_reverse]
        simp
      have hlast' : (cs.getLastD c) = h := by
        have := hlast
        rwa [hc, List.getLastD_cons] at this
      have hhead : c = (t.getLastD h) := by
        have h1 : (h :: t).reverse.head? = some c := by rw [hc]; rfl
        rw [List.head?_reverse] at h1
        have h2 : (h :: t).getLast? = some ((h :: t).getLastD h) := by
          rw [List.getLastD_eq_getLast?]
          cases heq2 : (h :: t).getLast? with
          | none => exact absurd heq2 (by simp)
          | some v => rfl
        rw [h2] at h1
        injection h1 with h3
        rw [← h3, List.getLastD_cons]
      rw [hlast', hhead, signedArea2_cons, cross_antisymm]
      ring

theorem abs_round_div_sub (c : ℚ) :
    |unscaleCoord (scaleCoord c) - c| ≤ 1 / 2000 := by
  have h : |c * 1000 - (round (c * (1000 : ℚ)) : ℚ)| ≤ 1 / 2 :=
    abs_sub_round (c * 1000)
  rw [abs_sub_comm] at h
  have heq : unscaleCoord (scaleCoord c) - c
      = ((round (c * (1000 : ℚ)) : ℚ) - c * 1000) / 1000 := by
    unfold unscaleCoord scaleCoord SCALE
    push_cast
    ring
  rw [heq, abs_div]
  rw [show |(1000 : ℚ)| = 1000 by norm_num]
  rw [div_le_div_iff₀ (by norm_num) (by norm_num)]
  linarith

/-- A contour with fewer than 3 vertices encloses no area. -/
theorem signedArea2_short (l : List Vec2) (h : l.length < 3) :
    signedArea2 l = 0 := by
  cases l with
  | nil => rfl
  | cons a t =>
    cases t with
    | nil => simp [signedArea2, pathSum, cross_self]
    | cons b t' =>
      cases t' with
      | nil =>
        show pathSum [a, b, a] = 0
        rw [pathSum_cons_cons, pathSum_cons_cons, cross_antisymm]
        simp [pathSum]
      | cons z t'' => simp at h; omega

theorem signedArea2_forceCCW_pos (pts : List Vec2)
    (h : signedArea2 pts ≠ 0) : 0 < signedArea2 (forceCCW pts) := by
  unfold forceCCW
  by_cases hlt : signedArea2 pts < 0
  · rw [if_pos (by simpa [isClockWise] using hlt), signedArea2_reverse]
    linarith
  · rw [if_neg (by simpa [isClockWise] using hlt)]
    exact lt_of_le_of_ne (not_lt.mp hlt) (Ne.symm h)

theorem signedArea2_forceCW_neg (pts : List Vec2)
    (h : signedArea2 pts ≠ 0) : signedArea2 (forceCW pts) < 0 := by
  unfold forceCW
  by_cases hlt : signedArea2 pts < 0
  · rwa [if_pos (by simpa [isClockWise] using hlt)]
  · rw [if_neg (by simpa [isClockWise] using hlt), signedArea2_reverse]
    have := lt_of_le_of_ne (not_lt.mp hlt) (Ne.symm h)
    linarith

mutual
theorem oriented_buildFromOuter :
    ∀ n : PolyNode, nondegNode n = true →
      (∀ s : Shape, (buildFromOuter forceCCW forceCW n).1 = some s →
        ShapeOriented s) ∧
      (∀ os ∈ (buildFromOuter forceCCW forceCW n).2, ∀ s : Shape,
        os = some s → ShapeOriented s)
  | .node h c cs, hn => by
    rw [nondegNode, Bool.and_eq_true, decide_eq_true_eq] at hn
    obtain ⟨hc, hcs⟩ := hn
    have hlen : ¬ c.length < 3 := by
      intro hl
      exact hc (signedArea2_short (c.map toVec2) (by simpa using hl))
    have ihhi := oriented_holesAndIslands cs hcs
    constructor
    · intro s hs
      rw [buildFromOuter, if_neg hlen] at hs
      injection hs with hs'
      subst hs'
      exact ⟨signedArea2_forceCCW_pos _ hc, ihhi.1⟩
    · intro os hos s hs
      rw [buildFromOuter, if_neg hlen] at hos
      exact ihhi.2 os hos s hs

theorem oriented_holesAndIslands :
    ∀ f : PolyForest, nondegForest f = true →
      (∀ pts ∈ (holesAndIslands forceCCW forceCW f).1, signedArea2 pts < 0) ∧
      (∀ os ∈ (holesAndIslands forceCCW forceCW f).2, ∀ s : Shape,
        os = some s → ShapeOriented s)
  | .nil, _ => by
    constructor <;> intro x hx <;> simp [holesAndIslands] at hx
  | .cons (.node chHole chContour chChilds) rest, hf => by
    rw [nondegForest, Bool.and_eq_true] at hf
    obtain ⟨hn, hrest⟩ := hf
    rw [nondegNode, Bool.and_eq_true, decide_eq_true_eq] at hn
    obtain ⟨hcont, hch⟩ := hn
    have ihrest := oriented_holesAndIslands rest hrest
    have ihisl := oriented_islandsOf chChilds hch
    rw [holesAndIslands]
    by_cases hh : chHole
    · simp only [hh, if_true]
      constructor
      · intro pts hpts
        rcases List.mem_append.mp hpts with hmem | hmem
        · by_cases h3 : 3 ≤ chContour.length
          · rw [if_pos h3] at hmem
            rcases List.mem_singleton.mp hmem with rfl
            exact signedArea2_forceCW_neg _ hcont
          · rw [if_neg h3] at hmem
            exact absurd hmem (List.not_mem_nil pts)
        · exact ihrest.1 pts hmem
      · intro os hos s hs
        rcases List.mem_append.mp hos with hmem | hmem
        · exact ihisl os hmem s hs
        · exact ihrest.2 os hmem s hs
    · simp only [hh, if_false]
      exact ihrest

theorem oriented_islandsOf :
    ∀ f : PolyForest, nondegForest f = true →
      ∀ os ∈ islandsOf forceCCW forceCW f, ∀ s : Shape,
        os = some s → ShapeOriented s
  | .nil, _ => by intro os hos; simp [islandsOf] at hos
  | .cons (.node hkHole hkContour hkChilds) rest, hf => by
    rw [nondegForest, Bool.and_eq_true] at hf
    obtain ⟨hn, hrest⟩ := hf
    have ihrest := oriented_islandsOf rest hrest
    have ihb := oriented_buildFromOuter (.node hkHole hkContour hkChilds) hn
    intro os hos s hs
    rw [islandsOf] at hos
    rcases List.mem_append.mp hos with hmem | hmem
    · by_cases hh : hkHole
      · rw [if_pos hh] at hmem
        exact absurd hmem (List.not_mem_nil os)
      · rw [if_neg hh] at hmem
        rcases List.mem_append.mp hmem with hmem2 | hmem2
        · exact ihb.2 os hmem2 s hs
        · rcases List.mem_singleton.mp hmem2 with rfl
          exact ihb.1 s hs
    · exact ihrest os hmem s hs
end

theorem oriented_polyTree000 :
    ∀ F : PolyForest, nondegForest F = true →
      ∀ os ∈ polyTreeToThreeShapes000 F, ∀ s : Shape,
        os = some s → ShapeOriented s
  | .nil, _ => by
    intro os hos
    simp [polyTreeToThreeShapes000, polyTreeToThreeShapesGen] at hos
  | .cons (.node h c cs) rest, hF => by
    rw [nondegForest, Bool.and_eq_true] at hF
    obtain ⟨hn, hrest⟩ := hF
    have ihrest := oriented_polyTree000 rest hrest
    have ihb := oriented_buildFromOuter (.node h c cs) hn
    intro os hos s hs
    rw [polyTreeToThreeShapes000, polyTreeToThreeShapesGen] at hos
    rcases List.mem_append.mp hos with hmem | hmem
    · by_cases hh : h
      · rw [if_pos hh] at hmem
        exact absurd hmem (List.not_mem_nil os)
      · rw [if_neg hh] at hmem
        rcases List.mem_append.mp hmem with hmem2 | hmem2
        · exact ihb.2 os hmem2 s hs
        · rcases hmeq : (buildFromOuter forceCCW forceCW (.node h c cs)).1 with
            _ | s'
          · rw [hmeq] at hmem2
            simp at hmem2
          · rw [hmeq] at hmem2
            simp at hmem2
            rw [hmem2] at hs
            injection hs with hs'
            subst hs'
            exact ihb.1 s' hmeq
    · exact ihrest os hmem s hs

theorem emittedOuters_append (a b : List (Option Shape)) :
    emittedOuters (a ++ b) = emittedOuters a ++ emittedOuters b := by
  unfold emittedOuters
  rw [List.reduceOption_append, List.map_append]

theorem emittedOuters_nil : emittedOuters [] = [] := rfl

theorem emittedOuters_some (s : Shape) :
    emittedOuters [some s] = [s.outer] := rfl

mutual
theorem permOuters_build (fo fh : List Vec2 → List Vec2) :
    ∀ n : PolyNode, bigNode n = true →
      List.Perm
        (emittedOuters ((buildFromOuter fo fh n).2 ++ [(buildFromOuter fo fh n).1]))
        ((fillContoursNode n).map (reconOuter fo))
  | .node hflag c cs, hn => by
    rw [bigNode, Bool.and_eq_true, decide_eq_true_eq] at hn
    obtain ⟨hc, hcs⟩ := hn
    have hlen : ¬ c.length < 3 := by omega
    have ihhi := permOuters_holesAndIslands fo fh cs hcs
    have h2 : (buildFromOuter fo fh (.node hflag c cs)).2 =
        (holesAndIslands fo fh cs).2 := by
      rw [buildFromOuter, if_neg hlen]
    have h1 : (buildFromOuter fo fh (.node hflag c cs)).1 =
        some ⟨fo (c.map toVec2), (holesAndIslands fo fh cs).1⟩ := by
      rw [buildFromOuter, if_neg hlen]
    rw [h1, h2, emittedOuters_append, emittedOuters_some, fillContoursNode,
      List.map_cons, reconOuter]
    exact (List.perm_append_singleton _ _).trans (ihhi.cons _)

theorem permOuters_holesAndIslands (fo fh : List Vec2 → List Vec2) :
    ∀ f : PolyForest, bigForest f = true →
      List.Perm (emittedOuters (holesAndIslands fo fh f).2)
        ((fillContoursHoles f).map (reconOuter fo))
  | .nil, _ => List.Perm.refl _
  | .cons (.node chHole chContour chChilds) rest, hf => by
    rw [bigForest, Bool.and_eq_true] at hf
    obtain ⟨hn, hrest⟩ := hf
    rw [bigNode, Bool.and_eq_true] at hn
    obtain ⟨_, hch⟩ := hn
    have ihrest := permOuters_holesAndIslands fo fh rest hrest
    have ihisl := permOuters_islandsOf fo fh chChilds hch
    cases chHole with
    | false => exact ihrest
    | true =>
      show List.Perm
        (emittedOuters (islandsOf fo fh chChilds ++ (holesAndIslands fo fh rest).2))
        ((fillContoursIslands chChilds ++ fillContoursHoles rest).map (reconOuter fo))
      rw [emittedOuters_append, List.map_append]
      exact List.Perm.append ihisl ihrest

theorem permOuters_islandsOf (fo fh : List Vec2 → List Vec2) :
    ∀ f : PolyForest, bigForest f = true →
      List.Perm (emittedOuters (islandsOf fo fh f))
        ((fillContoursIslands f).map (reconOuter fo))
  | .nil, _ => List.Perm.refl _
  | .cons (.node hkHole hkContour hkChilds) rest, hf => by
    rw [bigForest, Bool.and_eq_true] at hf
    obtain ⟨hn, hrest⟩ := hf
    have ihrest := permOuters_islandsOf fo fh rest hrest
    cases hkHole with
    | true => exact ihrest
    | false =>
      have ihb := permOuters_build fo fh (.node false hkContour hkChilds) hn
      show List.Perm
        (emittedOuters
          (((buildFromOuter fo fh (.node false hkContour hkChilds)).2
              ++ [(buildFromOuter fo fh (.node false hkContour hkChilds)).1])
            ++ islandsOf fo fh rest))
        ((fillContoursNode (.node false hkContour hkChilds)
            ++ fillContoursIslands rest).map (reconOuter fo))
      rw [emittedOuters_append, List.map_append]
      exact List.Perm.append ihb ihrest
end

theorem permOuters_top (fo fh : List Vec2 → List Vec2) :
    ∀ F : PolyForest, bigForest F = true →
      List.Perm (emittedOuters (polyTreeToThreeShapesGen fo fh F))
        ((fillContours F).map (reconOuter fo))
  | .nil, _ => List.Perm.refl _
  | .cons (.node hflag c cs) rest, hF => by
    rw [bigForest, Bool.and_eq_true] at hF
    obtain ⟨hn, hrest⟩ := hF
    have ihrest := permOuters_top fo fh rest hrest
    cases hflag with
    | true => exact ihrest
    | false =>
      have ihb := permOuters_build fo fh (.node false c cs) hn
      have hn' := hn
      rw [bigNode, Bool.and_eq_true, decide_eq_true_eq] at hn'
      have hlen : ¬ c.length < 3 := by omega
      have hsome :
          (buildFromOuter fo fh (.node false c cs)).1 =
            some ⟨fo (c.map toVec2), (holesAndIslands fo fh cs).1⟩ := by
        rw [buildFromOuter, if_neg hlen]
      show List.Perm
        (emittedOuters
          (((buildFromOuter fo fh (.node false c cs)).2
              ++ (match (buildFromOuter fo fh (.node false c cs)).1 with
                  | some s => [some s] | none => []))
            ++ polyTreeToThreeShapesGen fo fh rest))
        ((fillContoursNode (.node false c cs) ++ fillContours rest).map
          (reconOuter fo))
      have hmatch :
          (match (buildFromOuter fo fh (.node false c cs)).1 with
            | some s => [some s] | none => ([] : List (Option Shape))) =
            [(buildFromOuter fo fh (.node false c cs)).1] := by
        rw [hsome]
      rw [hmatch, emittedOuters_append, List.map_append]
      exact List.Perm.append ihb ihrest

/- ── Claims ────────────────────────────────────────────────────────────── -/

unseal Rat.mul Rat.inv Rat.add Rat.sub Rat.ofScientific in
/-- Claim C1 (corrected, counterexample): the claim asserts that in *every*
design variant's `polyTreeToThreeShapes` the winding is explicitly re-checked
and flipped per boundary so that every Region's outer boundary is
counter-clockwise.  In part_002's `polyTreeToThreeShapes` there is no such
check: feeding it a tree whose single non-hole root contour is wound
clockwise yields exactly one Region, and that Region's outer boundary is
still clockwise. -/
theorem C1_orientation_counterexample :
    (polyTreeToThreeShapes002 cwTriForest).reduceOption.map
      (fun s => isClockWise s.outer) = [true] := by decide

/-- Claim C1 (amended): in the outline variant (part_000) the winding *is*
re-checked and flipped per boundary: for every tree all of whose contours
have nonzero signed area, every produced Region has a counter-clockwise
outer boundary (positive signed area) and every direct hole boundary
clockwise (negative signed area). -/
theorem C1_orientation_amended (F : PolyForest) (hF : nondegForest F = true) :
    ∀ s ∈ (polyTreeToThreeShapes000 F).reduceOption,
      0 < signedArea2 s.outer ∧ ∀ hole ∈ s.holes, signedArea2 hole < 0 := by
  intro s hs
  exact oriented_polyTree000 F hF (some s) (List.reduceOption_mem_iff.mp hs) s rfl

unseal Rat.mul Rat.inv Rat.add Rat.sub Rat.ofScientific in
/-- Witness for C1: the amended theorem applied to the concrete
outer/hole/island tree; the first produced Region has a CCW outer. -/
theorem C1_orientation_amended_witness :
    0 < signedArea2
      (((polyTreeToThreeShapes000 demoForest).reduceOption.headD
        ⟨[], []⟩).outer) :=
  (C1_orientation_amended demoForest (by decide)
    ((polyTreeToThreeShapes000 demoForest).reduceOption.headD ⟨[], []⟩)
    (by decide)).1

/-- Claim C2 (confirmed): for every polygon tree with no degenerate contour,
both variants' `polyTreeToThreeShapes` emit exactly one Region per fill node
— the non-hole roots plus, recursively, every non-hole node nested inside a
hole node — each with its own outer boundary (that node's contour, run
through the variant's orientation fixup).  Islands are therefore neither
dropped nor merged into the enclosing Region. -/
theorem C2_islands_independent_regions (F : PolyForest)
    (hF : bigForest F = true) :
    List.Perm (emittedOuters (polyTreeToThreeShapes000 F))
      ((fillContours F).map (reconOuter forceCCW)) ∧
    List.Perm (emittedOuters (polyTreeToThreeShapes002 F))
      ((fillContours F).map (reconOuter id)) :=
  ⟨permOuters_top forceCCW forceCW F hF, permOuters_top id id F hF⟩

unseal Rat.mul Rat.inv Rat.add Rat.sub Rat.ofScientific in
/-- Witness for C2: the theorem applied to the concrete outer/hole/island
tree. -/
theorem C2_islands_independent_regions_witness :
    List.Perm (emittedOuters (polyTreeToThreeShapes000 demoForest))
      ((fillContours demoForest).map (reconOuter forceCCW)) :=
  (C2_islands_independent_regions demoForest (by decide)).1

/-- Claim C3 (corrected, counterexample): the claim asserts every variant's
export entry point rejects buffers below 84 bytes; part_002's `exportSTL`
has no such guard — with a signed-in, licensed user it downloads the file
even when the serialized buffer is 10 bytes. -/
theorem C3_export_guard_counterexample :
    ExportEvent.emitFile ∈ exportTrace002 ⟨true, true, true, true, 10⟩ ∧
    (10 : ℕ) < 84 := by decide

/-- Claim C3 (amended): the 84-byte minimum guard holds in the part_000 and
part_001 export entry points: neither ever downloads a buffer smaller than
84 bytes, and part_001 additionally surfaces an explicit failure in that
case. -/
theorem C3_export_guard_amended (i : ExportInput) :
    (ExportEvent.emitFile ∈ exportTrace000 i → 84 ≤ i.byteLength) ∧
    (ExportEvent.emitFile ∈ exportTrace001 i → 84 ≤ i.byteLength) ∧
    (i.userPresent = true → i.canExport = true → i.sceneReady = true →
      i.hasGeometry = true → i.byteLength < 84 →
      ExportEvent.exportFailed ∈ exportTrace001 i) := by
  obtain ⟨sr, up, ce, hg, n⟩ := i
  cases sr <;> cases up <;> cases ce <;> cases hg <;>
    by_cases hn : 84 ≤ n <;>
      simp_all [exportTrace000, exportTrace001]

/-- Witness for C3: at a concrete run that does emit, the buffer was at
least 84 bytes. -/
theorem C3_export_guard_amended_witness : (84 : ℕ) ≤ 984 :=
  (C3_export_guard_amended ⟨true, true, true, true, 984⟩).1 (by decide)

unseal Rat.mul Rat.inv Rat.add Rat.sub Rat.ofScientific in
/-- Claim C4 (corrected, counterexample): the claim asserts every variant
embeds each upper layer 0.05–0.2 units into the layer beneath.  part_002
instead uses *positive* offsets: with an initial glyph of depth 10, the base
layer's bottom face (z = 10.01) sits strictly *above* the initial layer's top
face (z = 10.005) — a gap, not an embed. -/
theorem C4_embedding_counterexample :
    ((rebuildMeshes002 "A" true false 10 1 1 4).solids.getD 0
        fallbackSolid).tag = LayerTag.initialGlyph ∧
    ((rebuildMeshes002 "A" true false 10 1 1 4).solids.getD 2
        fallbackSolid).tag = LayerTag.base ∧
    ((rebuildMeshes002 "A" true false 10 1 1 4).solids.getD 0
        fallbackSolid).zTop <
      ((rebuildMeshes002 "A" true false 10 1 1 4).solids.getD 2
        fallbackSolid).zBottom := by decide

theorem embed_base_text001 (bd1 td1 : ℚ) (hM : max (1/10 : ℚ) bd1 = bd1) :
    ProperlyEmbedded ⟨.base, 0, max (1/10) bd1⟩
      ⟨.text, bd1 - TEXT_BASE_EMBED, max (1/100) td1⟩ := by
  unfold ProperlyEmbedded Solid.zTop TEXT_BASE_EMBED
  rw [hM]
  constructor <;> ring_nf <;> norm_num

theorem embed_base_border001 (bd1 tbd1 : ℚ) (hM : max (1/10 : ℚ) bd1 = bd1) :
    ProperlyEmbedded ⟨.base, 0, max (1/10) bd1⟩
      ⟨.border, bd1 - BORDER_BASE_EMBED, max (1/10) tbd1⟩ := by
  unfold ProperlyEmbedded Solid.zTop BORDER_BASE_EMBED
  rw [hM]
  constructor <;> ring_nf <;> norm_num

/-- Claim C4 (amended): in the part_000 and part_001 rebuilds every non-base
layer is embedded into the base layer by a constant in the claimed 0.05–0.2
range (0.2 for text, 0.05 for the part_001 border), so its bottom face lies
strictly below the base's top face with no gap; part_001 needs the base
depth to be at least 0.1 (the UI slider minimum is 1). -/
theorem C4_embedding_amended (t u : String) (bd td bd1 tbd1 td1 : ℚ)
    (hbor : Bool) (hbd1 : 1/10 ≤ bd1) :
    (∀ upper ∈ (rebuildMeshes000 t bd td).solids,
      upper.tag ≠ LayerTag.base →
        ∃ lower ∈ (rebuildMeshes000 t bd td).solids,
          lower.tag = LayerTag.base ∧ ProperlyEmbedded lower upper) ∧
    (∀ upper ∈ rebuildMeshes001 u bd1 tbd1 td1 hbor,
      upper.tag ≠ LayerTag.base →
        ∃ lower ∈ rebuildMeshes001 u bd1 tbd1 td1 hbor,
          lower.tag = LayerTag.base ∧ ProperlyEmbedded lower upper) := by
  have hM : max (1/10 : ℚ) bd1 = bd1 := max_eq_right hbd1
  constructor
  · intro upper hmem htag
    simp only [rebuildMeshes000, List.mem_cons, List.not_mem_nil, or_false]
      at hmem
    rcases hmem with rfl | rfl
    · exact absurd rfl htag
    · refine ⟨⟨.base, 0, max (1/10) bd⟩, by simp [rebuildMeshes000], rfl, ?_⟩
      unfold ProperlyEmbedded Solid.zTop TEXT_BASE_EMBED
      constructor <;> ring_nf <;> norm_num
  · intro upper hmem htag
    have hbase : (⟨.base, 0, max (1/10) bd1⟩ : Solid) ∈
        rebuildMeshes001 u bd1 tbd1 td1 hbor := by
      cases hbor <;> simp [rebuildMeshes001]
    cases hbor with
    | false =>
      by_cases htr : u.trim = ""
      · simp [rebuildMeshes001, htr] at hmem
        exact absurd (by rw [hmem]) htag
      · simp [rebuildMeshes001, htr] at hmem
        rcases hmem with rfl | rfl
        · exact absurd rfl htag
        · exact ⟨_, hbase, rfl, embed_base_text001 bd1 td1 hM⟩
    | true =>
      by_cases htr : u.trim = ""
      · simp [rebuildMeshes001, htr] at hmem
        rcases hmem with rfl | rfl
        · exact absurd rfl htag
        · exact ⟨_, hbase, rfl, embed_base_border001 bd1 tbd1 hM⟩
      · simp [rebuildMeshes001, htr] at hmem
        rcases hmem with rfl | rfl | rfl
        · exact absurd rfl htag
        · exact ⟨_, hbase, rfl, embed_base_border001 bd1 tbd1 hM⟩
        · exact ⟨_, hbase, rfl, embed_base_text001 bd1 td1 hM⟩

unseal Rat.mul Rat.inv Rat.add Rat.sub Rat.ofScientific in
/-- Witness for C4: the amended theorem at concrete depths, applied to the
border layer of the name-tag rebuild. -/
theorem C4_embedding_amended_witness :
    ∃ lower ∈ rebuildMeshes001 "Name" 2 1 (4/5) true,
      lower.tag = LayerTag.base ∧
        ProperlyEmbedded lower
          ⟨LayerTag.border, 2 - BORDER_BASE_EMBED, max (1/10) 1⟩ :=
  (C4_embedding_amended "Name" "Name" 3 2 2 1 (4/5) true (by decide)).2
    ⟨LayerTag.border, 2 - BORDER_BASE_EMBED, max (1/10) 1⟩
    (by decide) (by decide)

/-- Claim C5 (corrected, counterexample): the claim asserts every variant
re-runs the full geometry rebuild after the license check resolves, before
serializing.  part_002's `exportSTL` serializes the previously built scene
group directly: its run contains no rebuild step at all. -/
theorem C5_export_rebuild_counterexample :
    exportTrace002 ⟨true, true, true, true, 500⟩ =
      [ExportEvent.licenseCheck, ExportEvent.serialize, ExportEvent.emitFile] ∧
    ExportEvent.rebuild ∉ exportTrace002 ⟨true, true, true, true, 500⟩ := by
  decide

/-- Claim C5 (amended): in the part_000 and part_001 export entry points,
whenever serialization happens at all, the run is license check, then a
fresh full rebuild, then serialization — the suspend point strictly precedes
geometry finalization and a stale composite is never serialized. -/
theorem C5_export_rebuild_amended (i : ExportInput) :
    (ExportEvent.serialize ∈ exportTrace000 i →
      ∃ rest, exportTrace000 i =
        ExportEvent.licenseCheck :: ExportEvent.rebuild ::
          ExportEvent.serialize :: rest) ∧
    (ExportEvent.serialize ∈ exportTrace001 i →
      ∃ rest, exportTrace001 i =
        ExportEvent.licenseCheck :: ExportEvent.rebuild ::
          ExportEvent.serialize :: rest) := by
  obtain ⟨sr, up, ce, hg, n⟩ := i
  cases sr <;> cases up <;> cases ce <;> cases hg <;>
    by_cases hn : 84 ≤ n <;>
      simp_all [exportTrace000, exportTrace001]

/-- Witness for C5: the amended theorem at a concrete run that serializes. -/
theorem C5_export_rebuild_amended_witness :
    ∃ rest, exportTrace000 ⟨true, true, true, true, 984⟩ =
      ExportEvent.licenseCheck :: ExportEvent.rebuild ::
        ExportEvent.serialize :: rest :=
  (C5_export_rebuild_amended ⟨true, true, true, true, 984⟩).1 (by decide)

unseal Rat.mul Rat.inv Rat.add Rat.sub Rat.ofScientific in
/-- Claim C6 (corrected, counterexample): the claim asserts the clamped
keyring annulus always has its inner radius strictly between 0 and the outer
radius.  At a requested outer size of 0.2 (outer radius clamps to 0.1) with
hole size 4, both the part_000 clipping path and `makeKeyringGeometry`
produce inner radius 0, which is not strictly positive. -/
theorem C6_keyring_clamp_counterexample :
    keyringInnerR000 (mkRat 1 5) 4 = 0 ∧
    (makeKeyringGeometry (mkRat 1 5) 4 3).innerRadius = 0 ∧
    ¬ 0 < keyringInnerR000 (mkRat 1 5) 4 := by decide

theorem keyringClampFacts (o hs : ℚ) :
    (keyringOuterR000 o ≤ hs / 2 →
      keyringInnerR000 o hs = keyringOuterR000 o - 1/10) ∧
    keyringInnerR000 o hs < keyringOuterR000 o ∧
    (1/5 < o → 0 < keyringInnerR000 o hs) := by
  have hR : (1/10 : ℚ) ≤ keyringOuterR000 o := le_max_left _ _
  refine ⟨?_, ?_, ?_⟩
  · intro hcl
    unfold keyringInnerR000
    rw [max_eq_right (by linarith : (1/20 : ℚ) ≤ hs / 2),
      min_eq_right (by linarith : keyringOuterR000 o - 1/10 ≤ hs / 2)]
  · have h := min_le_right (max (1/20) (hs / 2)) (keyringOuterR000 o - 1/10)
    unfold keyringInnerR000
    linarith
  · intro ho
    have h2 : keyringOuterR000 o = o / 2 := max_eq_right (by linarith)
    unfold keyringInnerR000
    apply lt_min
    · have h := le_max_left (1/20 : ℚ) (hs / 2)
      linarith
    · rw [h2]
      linarith

/-- Claim C6 (amended): a hole radius that would meet or exceed the outer
radius is clamped to exactly (outer radius − 0.1), and the inner radius is
always strictly below the outer radius, in the part_000 keyring clipping
path and in `makeKeyringGeometry` alike; the inner radius is moreover
strictly positive whenever the requested outer size exceeds 0.2 (the UI
slider minimum is 4). -/
theorem C6_keyring_clamp_amended (o hs d : ℚ) :
    (keyringOuterR000 o ≤ hs / 2 →
      keyringInnerR000 o hs = keyringOuterR000 o - 1/10) ∧
    keyringInnerR000 o hs < keyringOuterR000 o ∧
    (1/5 < o → 0 < keyringInnerR000 o hs) ∧
    ((makeKeyringGeometry o hs d).outerRadius ≤ hs / 2 →
      (makeKeyringGeometry o hs d).innerRadius =
        (makeKeyringGeometry o hs d).outerRadius - 1/10) ∧
    (makeKeyringGeometry o hs d).innerRadius <
      (makeKeyringGeometry o hs d).outerRadius ∧
    (1/5 < o → 0 < (makeKeyringGeometry o hs d).innerRadius) := by
  obtain ⟨h1, h2, h3⟩ := keyringClampFacts o hs
  exact ⟨h1, h2, h3, h1, h2, h3⟩

unseal Rat.mul Rat.inv Rat.add Rat.sub Rat.ofScientific in
/-- Witness for C6: the amended theorem at outer size 8, hole size 20: the
hole radius 10 exceeds the outer radius 4, so the inner radius clamps to
3.9, strictly between 0 and 4. -/
theorem C6_keyring_clamp_amended_witness :
    keyringInnerR000 8 20 = keyringOuterR000 8 - 1/10 ∧
    0 < keyringInnerR000 8 20 :=
  ⟨(C6_keyring_clamp_amended 8 20 3).1 (by decide),
   (C6_keyring_clamp_amended 8 20 3).2.2.1 (by decide)⟩

/-- Claim C7 (confirmed): for the empty text string both text-based variants
substitute a single-space glyph as the `generateShapes` input (`text || " "`),
the rebuild is total (no exception in the model), and the composite always
contains a base layer. -/
theorem C7_empty_text_space_glyph (bd td idp kd : ℚ) (hasInit keyr : Bool) :
    (rebuildMeshes000 "" bd td).glyphText = " " ∧
    (∃ s ∈ (rebuildMeshes000 "" bd td).solids, s.tag = LayerTag.base) ∧
    (rebuildMeshes002 "" hasInit keyr idp bd td kd).glyphText = " " ∧
    (∃ s ∈ (rebuildMeshes002 "" hasInit keyr idp bd td kd).solids,
      s.tag = LayerTag.base) := by
  refine ⟨rfl, ⟨⟨.base, 0, max (1/10) bd⟩, by simp [rebuildMeshes000], rfl⟩,
    rfl, ?_⟩
  cases hasInit with
  | false =>
    exact ⟨⟨.base, 0, max (1/10) bd⟩, by simp [rebuildMeshes002], rfl⟩
  | true =>
    exact ⟨⟨.base, max (1/10) idp + 1/100, max (1/10) bd⟩,
      by simp [rebuildMeshes002], rfl⟩

unseal Rat.mul Rat.inv Rat.add Rat.sub Rat.ofScientific in
/-- Claim C8 (corrected, counterexample): the claim asserts the requested
depth is passed through to the extrusion engine for all positive depths.
At requested text depth 0.05 the part_000 rebuild extrudes with depth
`max(0.1, 0.05) = 0.1`, not 0.05, so the mesh's z-extent differs from the
request. -/
theorem C8_extrusion_depth_counterexample :
    ((rebuildMeshes000 "A" 3 (mkRat 1 20)).solids.map Solid.height) =
      [3, mkRat 1 10] ∧
    (mkRat 1 10) ≠ (mkRat 1 20) := by decide

/-- Claim C8 (amended): the depth handed to the extrusion engine (and hence
the mesh z-extent, by the extrusion contract) is `max(0.1, d)`: it equals the
requested `d` exactly when `d ≥ 0.1`, and is 0.1 below that, both for the
part_000 text layer and for `makeKeyringGeometry`. -/
theorem C8_extrusion_depth_amended (t : String) (bd td o i d : ℚ) :
    (1/10 ≤ td →
      ∃ s ∈ (rebuildMeshes000 t bd td).solids,
        s.tag = LayerTag.text ∧ s.height = td) ∧
    (td < 1/10 →
      ∃ s ∈ (rebuildMeshes000 t bd td).solids,
        s.tag = LayerTag.text ∧ s.height = 1/10) ∧
    (1/10 ≤ d → (makeKeyringGeometry o i d).depth = d) ∧
    (d < 1/10 → (makeKeyringGeometry o i d).depth = 1/10) := by
  refine ⟨?_, ?_, ?_, ?_⟩
  · intro h
    exact ⟨⟨.text, max (1/10) bd - TEXT_BASE_EMBED, max (1/10) td⟩,
      by simp [rebuildMeshes000], rfl, max_eq_right h⟩
  · intro h
    exact ⟨⟨.text, max (1/10) bd - TEXT_BASE_EMBED, max (1/10) td⟩,
      by simp [rebuildMeshes000], rfl, max_eq_left (le_of_lt h)⟩
  · intro h
    exact max_eq_right h
  · intro h
    exact max_eq_left (le_of_lt h)

unseal Rat.mul Rat.inv Rat.add Rat.sub Rat.ofScientific in
/-- Witness for C8: the amended theorem at requested depths 2 and 4, both at
least 0.1, which pass through unchanged. -/
theorem C8_extrusion_depth_amended_witness :
    (∃ s ∈ (rebuildMeshes000 "Name" 3 2).solids,
      s.tag = LayerTag.text ∧ s.height = 2) ∧
    (makeKeyringGeometry 8 4 4).depth = 4 :=
  ⟨(C8_extrusion_depth_amended "Name" 3 2 8 4 4).1 (by decide),
   (C8_extrusion_depth_amended "Name" 3 2 8 4 4).2.2.1 (by decide)⟩

/-- Claim C9 (confirmed): every coordinate is scaled by the single fixed
factor 1000 with rounding on entry to the polygon engine and divided by the
same factor on exit, so a scale-then-unscale round trip moves each
coordinate by strictly less than 0.001 units (at most 1/2000). -/
theorem C9_scale_roundtrip (v : Vec2) :
    |(toVec2 (toIntPt v)).x - v.x| < 1/1000 ∧
    |(toVec2 (toIntPt v)).y - v.y| < 1/1000 := by
  constructor
  · calc |(toVec2 (toIntPt v)).x - v.x| ≤ 1/2000 := abs_round_div_sub v.x
    _ < 1/1000 := by norm_num
  · calc |(toVec2 (toIntPt v)).y - v.y| ≤ 1/2000 := abs_round_div_sub v.y
    _ < 1/1000 := by norm_num

/-- Claim C10 (confirmed): `getFont` is total; a second call with the same
key returns the identical cached font object and leaves the cache untouched
(the parse runs at most once per key); and an unknown key falls back to the
first `FONT_OPTIONS` entry. -/
theorem C10_getFont_cached_total (key : String) (s : FontCacheState) :
    getFont key ((getFont key s).2) = ((getFont key s).1, (getFont key s).2) ∧
    (s.cache.lookup key = none → key ∉ FONT_OPTION_KEYS →
      ((getFont key s).1).optIndex = 0) := by
  constructor
  · rcases hl : s.cache.lookup key with _ | f
    · simp [getFont, hl]
    · simp [getFont, hl]
  · intro hnone hmem
    have hfi : FONT_OPTION_KEYS.findIdx? (fun k => k == key) = none := by
      rw [List.findIdx?_eq_none_iff]
      intro x hx
      simp only [beq_eq_false_iff_ne, ne_eq]
      intro heq
      exact hmem (heq ▸ hx)
    simp [getFont, hnone, resolvedOptionIndex, hfi]

/-- Witness for C10: the theorem at the unknown key "nope" on the empty
cache: the call falls back to option 0 and the repeated call returns the
cached object unchanged. -/
theorem C10_getFont_cached_total_witness :
    getFont "nope" ((getFont "nope" ⟨[], 0⟩).2) =
      ((getFont "nope" (⟨[], 0⟩ : FontCacheState)).1,
        (getFont "nope" (⟨[], 0⟩ : FontCacheState)).2) ∧
    ((getFont "nope" (⟨[], 0⟩ : FontCacheState)).1).optIndex = 0 :=
  ⟨(C10_getFont_cached_total "nope" ⟨[], 0⟩).1,
   (C10_getFont_cached_total "nope" ⟨[], 0⟩).2 (by decide) (by decide)⟩

end KeychainStudio
